import Mathlib

/-!
# Verification of the chat protocol (server.py / client.py)

Shallow embedding of the frame codec, the per-connection reader, the
connection registry, the server dispatcher and the client send loop,
with theorems settling the specification's claims.

Bytes are modelled as `Nat` (values `< 256` where it matters), byte
strings as `List Nat`, and the blocking socket stream as the flat list
of bytes delivered before the peer closes.  Python calls that raise
(`struct.pack` on out-of-range fields, `struct.unpack` on short input)
are modelled with `Option`.
-/

namespace Chat

/-! ## Protocol constants (server.py lines 17-26, client.py lines 15-24) -/

def VERSION : Nat := 1
def TYPE_CONNECT : Nat := 1
def TYPE_MSG : Nat := 2
def TYPE_LIST : Nat := 3
def TYPE_FILE : Nat := 4
def TYPE_ACK : Nat := 5
def TYPE_DISCONNECT : Nat := 6

def HEADER_SIZE : Nat := 8

/-! ## Frame codec (server.py lines 35-42)

`struct.pack('!BBHI', ...)` writes 1-byte version, 1-byte type, 2-byte
big-endian sequence, 4-byte big-endian length, and raises `struct.error`
when a field is out of range; the raise is modelled by `none`. -/

def build_header (version type_ seq length : Nat) : Option (List Nat) :=
  if version < 256 ∧ type_ < 256 ∧ seq < 65536 ∧ length < 4294967296 then
    some [version, type_, seq / 256, seq % 256,
          length / 16777216, length / 65536 % 256, length / 256 % 256, length % 256]
  else
    none

/-- `struct.unpack('!BBHI', data[:8])` after the length check that raises
`ValueError` (modelled as `none`) on fewer than 8 bytes. -/
def parse_header (data : List Nat) : Option (Nat × Nat × Nat × Nat) :=
  match data with
  | b0 :: b1 :: b2 :: b3 :: b4 :: b5 :: b6 :: b7 :: _ =>
    some (b0, b1, b2 * 256 + b3, b4 * 16777216 + b5 * 65536 + b6 * 256 + b7)
  | _ => none

/-! ## UTF-8 (models Python's `str.encode('utf-8')` and
`bytes.decode('utf-8', errors='ignore')`) -/

def utf8EncodeCharBytes (n : Nat) : List Nat :=
  if n < 128 then [n]
  else if n < 2048 then [192 + n / 64, 128 + n % 64]
  else if n < 65536 then [224 + n / 4096, 128 + n / 64 % 64, 128 + n % 64]
  else [240 + n / 262144, 128 + n / 4096 % 64, 128 + n / 64 % 64, 128 + n % 64]

def utf8Encode (s : String) : List Nat :=
  s.data.foldr (fun c acc => utf8EncodeCharBytes c.toNat ++ acc) []

/-- Classification of one byte as the start of a UTF-8 sequence:
a complete ASCII char, the start of a multi-byte sequence (with the
count of continuation bytes still needed, the accumulated high bits,
and the admissible range `[lo, hi)` of the next continuation byte,
which excludes overlong encodings and surrogates), or an invalid
leading byte, which `errors='ignore'` drops. -/
inductive LeadStep where
  | ascii (c : Char)
  | multi (need acc lo hi : Nat)
  | invalid

def utf8Lead (b : Nat) : LeadStep :=
  if b < 128 then .ascii (Char.ofNat b)
  else if 194 ≤ b ∧ b < 224 then .multi 1 (b - 192) 128 192
  else if 224 ≤ b ∧ b < 240 then
    .multi 2 (b - 224) (if b = 224 then 160 else 128) (if b = 237 then 160 else 192)
  else if 240 ≤ b ∧ b < 245 then
    .multi 3 (b - 240) (if b = 240 then 144 else 128) (if b = 244 then 144 else 192)
  else .invalid

/-- UTF-8 decoding that skips over undecodable bytes, modelling
`errors='ignore'`: the first argument is the in-progress multi-byte
sequence (continuation bytes still needed, accumulated code point,
admissible range of the next byte), a sequence truncated by the end of
input is dropped, and a byte that cannot continue the open sequence
aborts it and is re-examined as a leading byte. -/
def utf8DecIgnore : Option (Nat × Nat × Nat × Nat) → List Nat → List Char
  | _, [] => []
  | none, b :: rest =>
    match utf8Lead b with
    | .ascii c => c :: utf8DecIgnore none rest
    | .multi n a lo hi => utf8DecIgnore (some (n, a, lo, hi)) rest
    | .invalid => utf8DecIgnore none rest
  | some (need, acc, lo, hi), b :: rest =>
    if lo ≤ b ∧ b < hi then
      if need = 1 then Char.ofNat (acc * 64 + (b - 128)) :: utf8DecIgnore none rest
      else utf8DecIgnore (some (need - 1, acc * 64 + (b - 128), 128, 192)) rest
    else
      match utf8Lead b with
      | .ascii c => c :: utf8DecIgnore none rest
      | .multi n a lo hi => utf8DecIgnore (some (n, a, lo, hi)) rest
      | .invalid => utf8DecIgnore none rest

/-- `payload.decode('utf-8', errors='ignore')`: with `errors='ignore'` the
decode never raises, so the result is always `some`. -/
def pyDecodeIgnore (bs : List Nat) : Option String :=
  some (String.mk (utf8DecIgnore none bs))

/-! ## Socket reading (server.py lines 44-53, used by lines 77-87) -/

/-- `recv_all(sock, n)`: collect exactly `n` bytes, or `None` when the
stream closes first.  The stream is the flat list of bytes the peer
delivers before closing; the returned pair is (data, remaining stream). -/
def recv_all (s : List Nat) (n : Nat) : Option (List Nat × List Nat) :=
  if n ≤ s.length then some (s.take n, s.drop n) else none

structure Frame where
  version : Nat
  type_ : Nat
  seq : Nat
  length : Nat
  payload : List Nat
deriving DecidableEq

/-- Outcome of pulling one frame off the stream (server.py lines 77-87):
`closedHeader` is the clean close (`recv_all` for the header returns
`None`), `closedPayload` the mid-payload close, `headerError` the
(unreachable) `ValueError` from `parse_header`. -/
inductive ReadResult where
  | ok (f : Frame) (rest : List Nat)
  | closedHeader
  | closedPayload (declared got : Nat)
  | headerError
deriving DecidableEq

def read_frame (s : List Nat) : ReadResult :=
  match recv_all s HEADER_SIZE with
  | none => .closedHeader
  | some (hdr_bytes, rest) =>
    match parse_header hdr_bytes with
    | none => .headerError
    | some (version, type_, seq, length) =>
      if 0 < length then
        match recv_all rest length with
        | none => .closedPayload length rest.length
        | some (payload, rest2) => .ok ⟨version, type_, seq, length, payload⟩ rest2
      else .ok ⟨version, type_, seq, length, []⟩ rest

/-! ## Connection registry (server.py lines 29-30, 64-65, 96-97, 109-110,
134-137).  A Python dict keeps insertion order and updates in place, so
it is modelled as a key-unique association list. -/

structure ClientInfo where
  name : String
  addr : String
deriving DecidableEq

abbrev Registry := List (Nat × ClientInfo)

def regKeys (reg : Registry) : List Nat := reg.map (fun p => p.1)

/-- `clients[conn] = {'name': name, 'addr': addr}` (server.py line 97). -/
def register (conn : Nat) (info : ClientInfo) (reg : Registry) : Registry :=
  if reg.any (fun p => p.1 == conn) then
    reg.map (fun p => if p.1 == conn then (conn, info) else p)
  else
    reg ++ [(conn, info)]

/-- `if conn in clients: del clients[conn]` (server.py lines 135-137). -/
def unregister (conn : Nat) (reg : Registry) : Registry :=
  reg.filter (fun p => p.1 != conn)

/-- `[s for s in clients.keys() if s != sender_sock]` (server.py line 65). -/
def snapshot_except (reg : Registry) (sender : Nat) : List Nat :=
  (reg.filter (fun p => p.1 != sender)).map (fun p => p.1)

/-! ## Server actions

The observable effects of the handler, in program order: lock
acquisition/release, registry access under the lock, socket writes
(each one `sendall` call), file writes, and transport close. -/

inductive Action where
  | acquire
  | release
  | mapOp
  | sockWrite (dst : Nat) (data : List Nat)
  | fileWrite (data : List Nat)
  | close (c : Nat)
deriving DecidableEq

/-- The socket writes of a trace, in order, as (destination, bytes). -/
def sendsOf (acts : List Action) : List (Nat × List Nat) :=
  acts.filterMap (fun a =>
    match a with
    | .sockWrite c b => some (c, b)
    | _ => none)

/-- A single `sendall` whose first 8 bytes declare exactly the number of
payload bytes that follow. -/
def wf_send (b : List Nat) : Bool :=
  match parse_header b with
  | some (_, _, _, l) => b.length == HEADER_SIZE + l
  | none => false

/-! ## Lock discipline checker

`lockScan acts d` walks a trace with the current lock depth `d`: the
single registry lock is non-reentrant, registry accesses may occur
anywhere, and socket writes, file writes and transport closes are legal
only with the lock free.  It returns the final depth, or `none` on a
violation. -/

def lockScan : List Action → Nat → Option Nat
  | [], d => some d
  | .acquire :: t, d => if d = 0 then lockScan t 1 else none
  | .release :: t, d => if d = 1 then lockScan t 0 else none
  | .mapOp :: t, d => lockScan t d
  | .sockWrite _ _ :: t, d => if d = 0 then lockScan t d else none
  | .fileWrite _ :: t, d => if d = 0 then lockScan t d else none
  | .close _ :: t, d => if d = 0 then lockScan t d else none

/-- The trace invariant of the server: the registry lock is held in
balanced, non-nested sections, every socket write, file write and
transport close happens with the lock free, the trace closes no
transport, and every socket write is a well-formed frame. -/
def ActsOk (A : List Action) : Prop :=
  lockScan A 0 = some 0 ∧
  (∀ a ∈ A, ∀ c, a ≠ Action.close c) ∧
  (∀ q ∈ sendsOf A, wf_send q.2 = true)

/-- `send_ack` (server.py lines 55-60): build the header (out-of-range
`seq` raises out of `send_ack`, hence `none`), then one `sendall`; a
`sendall` failure is caught inside `send_ack`, so sends never raise. -/
def send_ack (sock seq : Nat) (message : List Nat) : Option (List Action) :=
  match build_header VERSION TYPE_ACK seq message.length with
  | none => none
  | some hdr => some [.sockWrite sock (hdr ++ message)]

/-- `broadcast` (server.py lines 62-70): snapshot the recipients under
the lock, then send header+payload to each outside the lock. -/
def broadcast (reg : Registry) (sender_sock : Nat) (header payload : List Nat) :
    List Action :=
  [.acquire, .mapOp, .release] ++
    (snapshot_except reg sender_sock).map (fun s => Action.sockWrite s (header ++ payload))

/-- `f"recv_file_{int(time.time())}_{seq}.bin"` (server.py line 117). -/
def file_name (now seq : Nat) : String :=
  "recv_file_" ++ toString now ++ "_" ++ toString seq ++ ".bin"

/-- `[info['name'] for info in clients.values() if 'name' in info and
info['name']]` (server.py line 110): every registered entry has a
`'name'` key, and Python truthiness keeps exactly the non-empty names. -/
def list_names (reg : Registry) : List String :=
  (reg.map (fun p => p.2.name)).filter (fun n => n != "")

/-- `';'.join(names).encode('utf-8')` (server.py line 111). -/
def list_payload (reg : Registry) : List Nat :=
  utf8Encode (String.intercalate ";" (list_names reg))

inductive ExitKind where
  | cont
  | stop
  | raised
deriving DecidableEq

structure StepOut where
  reg : Registry
  name : Option String
  acts : List Action
  exit : ExitKind
deriving DecidableEq

/-- One iteration of the dispatch `elif` chain (server.py lines 91-130),
given the current registry, the connection, its peer address string, the
current display name and the received frame.  `exit = .raised` marks an
exception propagating to the `except`/`finally` of `handle_client`. -/
def handle_frame (reg : Registry) (conn : Nat) (addr : String) (name : Option String)
    (now : Nat) (f : Frame) : StepOut :=
  if f.type_ = TYPE_CONNECT then
    let name' := match pyDecodeIgnore f.payload with
      | some s => s
      | none => addr
    let reg' := register conn ⟨name', addr⟩ reg
    match send_ack conn f.seq (utf8Encode "CONNECTED") with
    | some w => ⟨reg', some name', [.acquire, .mapOp, .release] ++ w, .cont⟩
    | none => ⟨reg', some name', [.acquire, .mapOp, .release], .raised⟩
  else if f.type_ = TYPE_MSG then
    match build_header f.version TYPE_MSG f.seq f.length with
    | none => ⟨reg, name, [], .raised⟩
    | some hdr =>
      match send_ack conn f.seq (utf8Encode "MSG_RECEIVED") with
      | some w => ⟨reg, name, broadcast reg conn hdr f.payload ++ w, .cont⟩
      | none => ⟨reg, name, broadcast reg conn hdr f.payload, .raised⟩
  else if f.type_ = TYPE_LIST then
    match build_header VERSION TYPE_LIST f.seq (list_payload reg).length with
    | some resp_hdr =>
      ⟨reg, name,
       [.acquire, .mapOp, .release, .sockWrite conn (resp_hdr ++ list_payload reg)],
        .cont⟩
    | none => ⟨reg, name, [.acquire, .mapOp, .release], .raised⟩
  else if f.type_ = TYPE_FILE then
    let fname := file_name now f.seq
    match send_ack conn f.seq (utf8Encode ("FILE_SAVED:" ++ fname)) with
    | some w => ⟨reg, name, .fileWrite f.payload :: w, .cont⟩
    | none => ⟨reg, name, [.fileWrite f.payload], .raised⟩
  else if f.type_ = TYPE_DISCONNECT then
    match send_ack conn f.seq (utf8Encode "BYE") with
    | some w => ⟨reg, name, w, .stop⟩
    | none => ⟨reg, name, [], .raised⟩
  else if f.type_ = TYPE_ACK then
    ⟨reg, name, [], .cont⟩
  else
    ⟨reg, name, [], .cont⟩

/-- The `while True` receive/dispatch loop of `handle_client`
(server.py lines 76-132): read one frame, dispatch it, continue until a
close, a `break`, or a raise.  The loop runs on fuel so that it is
structurally recursive; `handle_client` passes `s.length + 1`, which the
loop can never exhaust because every iteration consumes at least the 8
header bytes of the stream. -/
def server_loop : Nat → Registry → Nat → String → Option String → Nat → List Nat →
    Registry × List Action
  | 0, reg, _, _, _, _, _ => (reg, [])
  | fuel + 1, reg, conn, addr, name, now, s =>
    match read_frame s with
    | .closedHeader => (reg, [])
    | .closedPayload _ _ => (reg, [])
    | .headerError => (reg, [])
    | .ok f rest =>
      let out := handle_frame reg conn addr name now f
      match out.exit with
      | .cont =>
        let (reg2, acts2) := server_loop fuel out.reg conn addr out.name now rest
        (reg2, out.acts ++ acts2)
      | .stop => (out.reg, out.acts)
      | .raised => (out.reg, out.acts)

/-- `handle_client` (server.py lines 72-142): the dispatch loop followed
by the `finally` cleanup — remove the connection from the registry under
the lock, then close the transport. -/
def handle_client (reg : Registry) (conn : Nat) (addr : String) (now : Nat)
    (s : List Nat) : Registry × List Action :=
  let (reg2, acts) := server_loop (s.length + 1) reg conn addr none now s
  (unregister conn reg2, acts ++ [.acquire, .mapOp, .release, .close conn])

end Chat

namespace Chat

/-! ## Client (client.py) -/

/-- One outgoing client frame: `sendall(build_header(VERSION, type_, seq,
len(payload)) + payload)`. -/
structure OutFrame where
  type_ : Nat
  seq : Nat
  payload : List Nat
deriving DecidableEq

/-- `line.startswith(p)`. -/
def strStarts (s p : String) : Bool := p.data.isPrefixOf s.data

/-- Second component of `line.split(' ', 1)`: everything after the first
space. -/
def split_after_space (s : String) : String :=
  String.mk ((s.data.dropWhile (fun c => c != ' ')).drop 1)

def isPySpace (c : Char) : Bool :=
  c == ' ' || c == '\t' || c == '\n' || c == '\r' || c == '\x0b' || c == '\x0c'

/-- Python `str.strip()`. -/
def pyStrip (s : String) : String :=
  String.mk (((s.data.dropWhile isPySpace).reverse.dropWhile isPySpace).reverse)

/-- `send_connect` (client.py lines 90-93). -/
def send_connect (name : String) (seq : Nat) : OutFrame :=
  ⟨TYPE_CONNECT, seq, utf8Encode name⟩

/-- `send_msg` (client.py lines 95-98). -/
def send_msg (text : String) (seq : Nat) : OutFrame :=
  ⟨TYPE_MSG, seq, utf8Encode text⟩

/-- `send_list` (client.py lines 100-102). -/
def send_list (seq : Nat) : OutFrame :=
  ⟨TYPE_LIST, seq, []⟩

/-- `send_disconnect` (client.py lines 118-120). -/
def send_disconnect (seq : Nat) : OutFrame :=
  ⟨TYPE_DISCONNECT, seq, []⟩

/-- The successive results of `f.read(4096)` (client.py line 111): the
file contents split into chunks of 4096 bytes, the last one shorter.
`cur` is the reversed in-progress chunk. -/
def readChunks4096 (cur : List Nat) : List Nat → List (List Nat)
  | [] => if cur = [] then [] else [cur.reverse]
  | b :: rest =>
    if cur.length = 4095 then (b :: cur).reverse :: readChunks4096 [] rest
    else readChunks4096 (b :: cur) rest

/-- The chunk loop of `send_file` (client.py lines 108-116): send each
chunk with the local `seq`, incrementing it mod 65536 per chunk. -/
def send_file_loop (seq : Nat) : List (List Nat) → List OutFrame
  | [] => []
  | c :: cs => OutFrame.mk TYPE_FILE seq c :: send_file_loop ((seq + 1) % 65536) cs

/-- `send_file` (client.py lines 104-116).  `fs` maps a path to the file
contents when `os.path.isfile` holds, else `none`. -/
def send_file (fs : String → Option (List Nat)) (filepath : String) (seq_start : Nat) :
    List OutFrame :=
  match fs filepath with
  | none => []
  | some data => send_file_loop seq_start (readChunks4096 [] data)

/-- The interactive command loop of `main` (client.py lines 140-156),
given the input lines; returns the outgoing frames in order. -/
def client_loop (fs : String → Option (List Nat)) : Nat → List String → List OutFrame
  | _, [] => []
  | seq, line :: rest =>
    if line = "" then client_loop fs seq rest
    else if strStarts line "/quit" || strStarts line "/exit" then
      [send_disconnect seq]
    else if strStarts line "/who" || strStarts line "/list" then
      send_list seq :: client_loop fs ((seq + 1) % 65536) rest
    else if strStarts line "/sendfile " then
      send_file fs (pyStrip (split_after_space line)) seq ++
        client_loop fs ((seq + 1) % 65536) rest
    else
      send_msg line seq :: client_loop fs ((seq + 1) % 65536) rest

/-- `main` (client.py lines 136-156): CONNECT with seq 1, increment the
counter, then run the command loop. -/
def client_run (name : String) (fs : String → Option (List Nat))
    (lines : List String) : List OutFrame :=
  send_connect name 1 :: client_loop fs ((1 + 1) % 65536) lines

end Chat

namespace Chat

theorem build_header_isSome (v t s l : Nat)
    (hv : v < 256) (ht : t < 256) (hs : s < 65536) (hl : l < 4294967296) :
    build_header v t s l =
      some [v, t, s / 256, s % 256,
            l / 16777216, l / 65536 % 256, l / 256 % 256, l % 256] := by
  unfold build_header
  rw [if_pos ⟨hv, ht, hs, hl⟩]

theorem parse_build (v t s l : Nat) (tail : List Nat) :
    parse_header
      ([v, t, s / 256, s % 256,
        l / 16777216, l / 65536 % 256, l / 256 % 256, l % 256] ++ tail) =
      some (v, t, s, l) := by
  simp only [parse_header, List.cons_append, List.nil_append]
  have h2 : s / 256 * 256 + s % 256 = s := by omega
  have h4 : l / 16777216 * 16777216 + l / 65536 % 256 * 65536 +
      l / 256 % 256 * 256 + l % 256 = l := by omega
  rw [h2, h4]

/-- C1: Codec round-trip — for every version in [0,255], type in [0,255],
sequence in [0,65535] and payload whose length fits in 32 bits,
`build_header` succeeds, produces an 8-byte header, and parsing the
header followed by the payload returns exactly
(version, type, sequence, payload length). -/
theorem C1_codec_roundtrip (version type_ seq : Nat) (payload : List Nat)
    (hv : version < 256) (ht : type_ < 256) (hs : seq < 65536)
    (hl : payload.length < 4294967296) :
    ∃ hdr, build_header version type_ seq payload.length = some hdr ∧
      hdr.length = HEADER_SIZE ∧
      parse_header (hdr ++ payload) = some (version, type_, seq, payload.length) := by
  refine ⟨_, build_header_isSome version type_ seq payload.length hv ht hs hl, ?_, ?_⟩
  · rfl
  · exact parse_build version type_ seq payload.length payload

theorem C1_codec_roundtrip_witness :
    ∃ hdr, build_header 1 2 65535 2 = some hdr ∧
      hdr.length = HEADER_SIZE ∧
      parse_header (hdr ++ [7, 8]) = some (1, 2, 65535, 2) :=
  C1_codec_roundtrip 1 2 65535 [7, 8] (by decide) (by decide) (by decide) (by decide)

theorem unregister_not_mem (reg : Registry) (conn : Nat) :
    conn ∉ regKeys (unregister conn reg) := by
  simp only [regKeys, unregister, List.mem_map, List.mem_filter]
  rintro ⟨p, ⟨_, hne⟩, heq⟩
  simp only [bne_iff_ne, ne_eq] at hne
  exact hne heq

/-- C8: `unregister` is idempotent — removing a connection twice leaves
the registry as removing it once, and removing an absent connection is a
no-op. -/
theorem C8_unregister_idempotent (reg : Registry) (conn : Nat) :
    unregister conn (unregister conn reg) = unregister conn reg ∧
    (conn ∉ regKeys reg → unregister conn reg = reg) := by
  constructor
  · induction reg with
    | nil => rfl
    | cons hd tl ih =>
      by_cases h : hd.1 = conn
      · simpa [unregister, List.filter_cons, h] using ih
      · simp only [unregister, List.filter_cons] at ih ⊢
        simp [h, ih]
  · intro hmem
    apply List.filter_eq_self.mpr
    intro p hp
    simp only [bne_iff_ne, ne_eq]
    intro hc
    exact hmem (show conn ∈ regKeys reg from List.mem_map.mpr ⟨p, hp, hc⟩)

theorem C8_unregister_idempotent_witness :
    unregister 2 (unregister 2 [(1, ClientInfo.mk "A" "x")]) =
      unregister 2 [(1, ClientInfo.mk "A" "x")] ∧
    unregister 2 [(1, ClientInfo.mk "A" "x")] = [(1, ClientInfo.mk "A" "x")] :=
  ⟨(C8_unregister_idempotent [(1, ClientInfo.mk "A" "x")] 2).1,
   (C8_unregister_idempotent [(1, ClientInfo.mk "A" "x")] 2).2 (by decide)⟩

theorem read_frame_short {s : List Nat} (h : s.length < HEADER_SIZE) :
    read_frame s = .closedHeader := by
  unfold read_frame recv_all
  rw [if_neg (by omega)]

theorem read_frame_cons (b0 b1 b2 b3 b4 b5 b6 b7 : Nat) (rest : List Nat) :
    read_frame (b0::b1::b2::b3::b4::b5::b6::b7::rest) =
      if b4*16777216+b5*65536+b6*256+b7 ≤ rest.length then
        .ok (Frame.mk b0 b1 (b2*256+b3) (b4*16777216+b5*65536+b6*256+b7)
             (rest.take (b4*16777216+b5*65536+b6*256+b7)))
          (rest.drop (b4*16777216+b5*65536+b6*256+b7))
      else .closedPayload (b4*16777216+b5*65536+b6*256+b7) rest.length := by
  have hrecv : recv_all (b0::b1::b2::b3::b4::b5::b6::b7::rest) HEADER_SIZE =
      some ([b0,b1,b2,b3,b4,b5,b6,b7], rest) := by
    unfold recv_all
    rw [if_pos (by simp [HEADER_SIZE] :
      HEADER_SIZE ≤ (b0::b1::b2::b3::b4::b5::b6::b7::rest).length)]
    simp [HEADER_SIZE]
  unfold read_frame
  rw [hrecv]
  show (if 0 < b4*16777216+b5*65536+b6*256+b7 then
         match recv_all rest (b4*16777216+b5*65536+b6*256+b7) with
         | none => ReadResult.closedPayload (b4*16777216+b5*65536+b6*256+b7) rest.length
         | some (payload, rest2) =>
             ReadResult.ok
               (Frame.mk b0 b1 (b2*256+b3) (b4*16777216+b5*65536+b6*256+b7) payload) rest2
       else
         ReadResult.ok (Frame.mk b0 b1 (b2*256+b3) (b4*16777216+b5*65536+b6*256+b7) []) rest) = _
  by_cases hl : 0 < b4*16777216+b5*65536+b6*256+b7
  · rw [if_pos hl]
    unfold recv_all
    by_cases h2 : b4*16777216+b5*65536+b6*256+b7 ≤ rest.length
    · rw [if_pos h2, if_pos h2]
    · rw [if_neg h2, if_neg h2]
  · have h0 : b4*16777216+b5*65536+b6*256+b7 = 0 := by omega
    rw [if_neg hl, if_pos (h0 ▸ Nat.zero_le rest.length)]
    rw [h0]
    simp

/-- C7: the Connection Reader reads exactly 8 header bytes and, when the
declared length is positive, exactly that many payload bytes, yielding
only complete frames; a stream that ends before the header completes is
reported as the clean close, a stream that ends mid-payload is reported
as closed-with-truncation, and `parse_header` never raises inside the
loop. -/
theorem C7_reader (s : List Nat) :
    (read_frame s = .closedHeader ↔ s.length < HEADER_SIZE) ∧
    (∀ f rest, read_frame s = .ok f rest →
      f.payload.length = f.length ∧
      f.payload = (s.drop HEADER_SIZE).take f.length ∧
      rest = s.drop (HEADER_SIZE + f.length) ∧
      parse_header s = some (f.version, f.type_, f.seq, f.length) ∧
      HEADER_SIZE + f.length ≤ s.length) ∧
    (∀ l g, read_frame s = .closedPayload l g →
      HEADER_SIZE ≤ s.length ∧ s.length < HEADER_SIZE + l) ∧
    read_frame s ≠ .headerError := by
  rcases s with _|⟨b0,_|⟨b1,_|⟨b2,_|⟨b3,_|⟨b4,_|⟨b5,_|⟨b6,_|⟨b7,rest⟩⟩⟩⟩⟩⟩⟩⟩
  case cons.cons.cons.cons.cons.cons.cons.cons =>
    have hc := read_frame_cons b0 b1 b2 b3 b4 b5 b6 b7 rest
    by_cases hle : b4*16777216+b5*65536+b6*256+b7 ≤ rest.length
    · rw [if_pos hle] at hc
      refine ⟨⟨fun hch => ?_, fun hlt => ?_⟩, fun f rest' hok => ?_, fun l g hcp => ?_, ?_⟩
      · rw [hc] at hch; exact absurd hch (by simp)
      · exfalso; simp only [List.length_cons, HEADER_SIZE] at hlt; omega
      · rw [hc] at hok
        simp only [ReadResult.ok.injEq] at hok
        obtain ⟨rfl, rfl⟩ := hok
        refine ⟨by simp [List.length_take]; omega, by simp [HEADER_SIZE], ?_, ?_, ?_⟩
        · show List.drop (b4*16777216+b5*65536+b6*256+b7) rest =
            List.drop (HEADER_SIZE + (b4*16777216+b5*65536+b6*256+b7))
              (b0::b1::b2::b3::b4::b5::b6::b7::rest)
          rw [Nat.add_comm HEADER_SIZE (b4*16777216+b5*65536+b6*256+b7), ← List.drop_drop]
          simp [HEADER_SIZE]
        · rfl
        · simp [HEADER_SIZE]; omega
      · rw [hc] at hcp; exact absurd hcp (by simp)
      · rw [hc]; simp
    · rw [if_neg hle] at hc
      refine ⟨⟨fun hch => ?_, fun hlt => ?_⟩, fun f rest' hok => ?_, fun l g hcp => ?_, ?_⟩
      · rw [hc] at hch; exact absurd hch (by simp)
      · exfalso; simp only [List.length_cons, HEADER_SIZE] at hlt; omega
      · rw [hc] at hok; exact absurd hok (by simp)
      · rw [hc] at hcp
        simp only [ReadResult.closedPayload.injEq] at hcp
        obtain ⟨rfl, rfl⟩ := hcp
        constructor
        · simp [HEADER_SIZE]
        · simp [HEADER_SIZE]; omega
      · rw [hc]; simp
  all_goals simp [read_frame, recv_all, HEADER_SIZE]

theorem C7_reader_witness :
    (Frame.mk 1 2 5 2 [9, 9]).payload.length = (Frame.mk 1 2 5 2 [9, 9]).length ∧
    (Frame.mk 1 2 5 2 [9, 9]).payload =
      (([1, 2, 0, 5, 0, 0, 0, 2, 9, 9] : List Nat).drop HEADER_SIZE).take
        (Frame.mk 1 2 5 2 [9, 9]).length ∧
    ([] : List Nat) =
      ([1, 2, 0, 5, 0, 0, 0, 2, 9, 9] : List Nat).drop
        (HEADER_SIZE + (Frame.mk 1 2 5 2 [9, 9]).length) ∧
    parse_header [1, 2, 0, 5, 0, 0, 0, 2, 9, 9] = some (1, 2, 5, 2) ∧
    HEADER_SIZE + (Frame.mk 1 2 5 2 [9, 9]).length ≤
      ([1, 2, 0, 5, 0, 0, 0, 2, 9, 9] : List Nat).length :=
  (C7_reader [1, 2, 0, 5, 0, 0, 0, 2, 9, 9]).2.1 (Frame.mk 1 2 5 2 [9, 9]) [] (by decide)

theorem send_ack_some {sock q : Nat} {m : List Nat} {w : List Action}
    (h : send_ack sock q m = some w) :
    ∃ hdr, build_header VERSION TYPE_ACK q m.length = some hdr ∧
      w = [Action.sockWrite sock (hdr ++ m)] := by
  unfold send_ack at h
  cases hb : build_header VERSION TYPE_ACK q m.length with
  | none => rw [hb] at h; exact absurd h (by simp)
  | some hdr =>
    rw [hb] at h
    simp only [Option.some.injEq] at h
    exact ⟨hdr, rfl, h.symm⟩

theorem wf_send_build {v t q l : Nat} {hdr m : List Nat}
    (hb : build_header v t q l = some hdr) (hm : m.length = l) :
    wf_send (hdr ++ m) = true := by
  unfold build_header at hb
  split at hb
  · simp only [Option.some.injEq] at hb
    subst hb
    unfold wf_send
    rw [parse_build]
    simp only [List.length_append, List.length_cons, List.length_nil, HEADER_SIZE, beq_iff_eq]
    omega
  · exact absurd hb (by simp)

theorem lockScan_append (xs ys : List Action) (d : Nat) :
    lockScan (xs ++ ys) d = (lockScan xs d).bind (fun d2 => lockScan ys d2) := by
  induction xs generalizing d with
  | nil => simp [lockScan]
  | cons hd tl ih =>
    cases hd <;> simp only [List.cons_append, lockScan] <;>
      first
      | exact ih _
      | (split
         · exact ih _
         · simp)

theorem lockScan_sockWrites (l : List Nat) (bs : List Nat) :
    lockScan (l.map (fun c => Action.sockWrite c bs)) 0 = some 0 := by
  induction l with
  | nil => rfl
  | cons hd tl ih => simpa [lockScan] using ih

theorem sendsOf_append (xs ys : List Action) :
    sendsOf (xs ++ ys) = sendsOf xs ++ sendsOf ys := by
  simp [sendsOf]

theorem sendsOf_map_sockWrite (l : List Nat) (bs : List Nat) :
    sendsOf (l.map (fun c => Action.sockWrite c bs)) = l.map (fun c => (c, bs)) := by
  induction l <;> simp_all [sendsOf]

theorem read_frame_ok_payload_len {s : List Nat} {f : Frame} {rest : List Nat}
    (h : read_frame s = .ok f rest) : f.payload.length = f.length := by
  rcases s with _|⟨b0,_|⟨b1,_|⟨b2,_|⟨b3,_|⟨b4,_|⟨b5,_|⟨b6,_|⟨b7,rest'⟩⟩⟩⟩⟩⟩⟩⟩
  case cons.cons.cons.cons.cons.cons.cons.cons =>
    rw [read_frame_cons] at h
    split at h
    · simp only [ReadResult.ok.injEq] at h
      obtain ⟨rfl, rfl⟩ := h
      simp only [List.length_take]
      omega
    · exact absurd h (by simp)
  all_goals rw [read_frame_short (by simp [HEADER_SIZE])] at h
  all_goals exact absurd h (by simp)

theorem handle_frame_acts_facts (reg : Registry) (conn : Nat) (addr : String)
    (name : Option String) (now : Nat) (f : Frame) :
    lockScan (handle_frame reg conn addr name now f).acts 0 = some 0 ∧
    (∀ a ∈ (handle_frame reg conn addr name now f).acts, ∀ c, a ≠ Action.close c) := by
  unfold handle_frame
  split_ifs with h1 h2 h3 h4 h5 h6
  · cases hsa : send_ack conn f.seq (utf8Encode "CONNECTED") with
    | none => simp [hsa, lockScan]
    | some w =>
      obtain ⟨hdr, hb, rfl⟩ := send_ack_some hsa
      simp [hsa, lockScan]
  · cases hbh : build_header f.version TYPE_MSG f.seq f.length with
    | none => simp [hbh, lockScan]
    | some hdr =>
      cases hsa : send_ack conn f.seq (utf8Encode "MSG_RECEIVED") with
      | none =>
        constructor
        · simp [hbh, hsa, broadcast, lockScan, lockScan_append, lockScan_sockWrites]
        · intro a ha c
          simp only [hbh, hsa, broadcast] at ha
          simp only [List.append_assoc, List.mem_append, List.mem_map, List.mem_cons,
            List.not_mem_nil, or_false] at ha
          rcases ha with (rfl | rfl | rfl) | ⟨x, _, rfl⟩ <;> simp
      | some w =>
        obtain ⟨ahdr, hab, rfl⟩ := send_ack_some hsa
        constructor
        · simp [hbh, hsa, broadcast, lockScan, lockScan_append, lockScan_sockWrites]
        · intro a ha c
          simp only [hbh, hsa, broadcast] at ha
          simp only [List.append_assoc, List.mem_append, List.mem_map, List.mem_cons,
            List.not_mem_nil, or_false] at ha
          rcases ha with (rfl | rfl | rfl) | ⟨x, _, rfl⟩ | rfl <;> simp
  · cases hbh : build_header VERSION TYPE_LIST f.seq (list_payload reg).length with
    | none => simp [hbh, lockScan]
    | some hdr => simp [hbh, lockScan]
  · cases hsa : send_ack conn f.seq (utf8Encode ("FILE_SAVED:" ++ file_name now f.seq)) with
    | none => simp [hsa, lockScan]
    | some w =>
      obtain ⟨hdr, hb, rfl⟩ := send_ack_some hsa
      simp [hsa, lockScan]
  · cases hsa : send_ack conn f.seq (utf8Encode "BYE") with
    | none => simp [hsa, lockScan]
    | some w =>
      obtain ⟨hdr, hb, rfl⟩ := send_ack_some hsa
      simp [hsa, lockScan]
  · simp [lockScan]
  · simp [lockScan]





theorem handle_frame_wf_sends (reg : Registry) (conn : Nat) (addr : String)
    (name : Option String) (now : Nat) (f : Frame)
    (hp : f.payload.length = f.length) :
    ∀ q ∈ sendsOf (handle_frame reg conn addr name now f).acts, wf_send q.2 = true := by
  unfold handle_frame
  split_ifs with h1 h2 h3 h4 h5 h6
  · cases hsa : send_ack conn f.seq (utf8Encode "CONNECTED") with
    | none => simp [hsa, sendsOf]
    | some w =>
      obtain ⟨hdr, hb, rfl⟩ := send_ack_some hsa
      intro q hq
      simp only [hsa, sendsOf, List.filterMap_cons, List.filterMap_append,
        List.filterMap_nil] at hq
      simp only [List.nil_append, List.mem_cons, List.not_mem_nil, or_false] at hq
      subst hq
      exact wf_send_build hb rfl
  · cases hbh : build_header f.version TYPE_MSG f.seq f.length with
    | none => simp [hbh, sendsOf]
    | some hdr =>
      cases hsa : send_ack conn f.seq (utf8Encode "MSG_RECEIVED") with
      | none =>
        intro q hq
        simp only [hbh, hsa, broadcast] at hq
        rw [sendsOf_append] at hq
        simp only [sendsOf, List.filterMap_cons, List.filterMap_nil, List.nil_append,
          List.append_nil] at hq
        rw [show (List.filterMap _ ((snapshot_except reg conn).map
            (fun s => Action.sockWrite s (hdr ++ f.payload))) : List (Nat × List Nat)) =
            sendsOf ((snapshot_except reg conn).map
              (fun s => Action.sockWrite s (hdr ++ f.payload))) from rfl] at hq
        rw [sendsOf_map_sockWrite] at hq
        simp only [List.mem_map] at hq
        obtain ⟨x, _, rfl⟩ := hq
        exact wf_send_build hbh hp
      | some w =>
        obtain ⟨ahdr, hab, rfl⟩ := send_ack_some hsa
        intro q hq
        simp only [hbh, hsa, broadcast, List.append_assoc] at hq
        rw [sendsOf_append] at hq
        simp only [List.mem_append] at hq
        rcases hq with hq | hq
        · simp [sendsOf] at hq
        · rw [sendsOf_append] at hq
          simp only [List.mem_append] at hq
          rcases hq with hq | hq
          · rw [sendsOf_map_sockWrite] at hq
            simp only [List.mem_map] at hq
            obtain ⟨x, _, rfl⟩ := hq
            exact wf_send_build hbh hp
          · simp only [sendsOf, List.filterMap_cons, List.filterMap_nil, List.mem_cons,
              List.not_mem_nil, or_false] at hq
            subst hq
            exact wf_send_build hab rfl
  · cases hbh : build_header VERSION TYPE_LIST f.seq (list_payload reg).length with
    | none => simp [hbh, sendsOf]
    | some hdr =>
      intro q hq
      simp only [hbh, sendsOf, List.filterMap_cons, List.filterMap_nil, List.nil_append,
        List.mem_cons, List.not_mem_nil, or_false] at hq
      subst hq
      exact wf_send_build hbh rfl
  · cases hsa : send_ack conn f.seq (utf8Encode ("FILE_SAVED:" ++ file_name now f.seq)) with
    | none => simp [hsa, sendsOf]
    | some w =>
      obtain ⟨hdr, hb, rfl⟩ := send_ack_some hsa
      intro q hq
      simp only [hsa, sendsOf, List.filterMap_cons, List.filterMap_nil, List.nil_append,
        List.mem_cons, List.not_mem_nil, or_false] at hq
      subst hq
      exact wf_send_build hb rfl
  · cases hsa : send_ack conn f.seq (utf8Encode "BYE") with
    | none => simp [hsa, sendsOf]
    | some w =>
      obtain ⟨hdr, hb, rfl⟩ := send_ack_some hsa
      intro q hq
      simp only [hsa, sendsOf, List.filterMap_cons, List.filterMap_nil, List.nil_append,
        List.mem_cons, List.not_mem_nil, or_false] at hq
      subst hq
      exact wf_send_build hb rfl
  · simp [sendsOf]
  · simp [sendsOf]

theorem ActsOk_nil : ActsOk [] := by
  refine ⟨rfl, by simp, by simp [sendsOf]⟩

theorem ActsOk_append {A B : List Action} (hA : ActsOk A) (hB : ActsOk B) :
    ActsOk (A ++ B) := by
  obtain ⟨hA1, hA2, hA3⟩ := hA
  obtain ⟨hB1, hB2, hB3⟩ := hB
  refine ⟨?_, ?_, ?_⟩
  · rw [lockScan_append, hA1]
    simpa using hB1
  · intro a ha c
    rcases List.mem_append.mp ha with h | h
    · exact hA2 a h c
    · exact hB2 a h c
  · intro q hq
    rw [sendsOf_append] at hq
    rcases List.mem_append.mp hq with h | h
    · exact hA3 q h
    · exact hB3 q h

theorem handle_frame_ActsOk (reg : Registry) (conn : Nat) (addr : String)
    (name : Option String) (now : Nat) (f : Frame)
    (hp : f.payload.length = f.length) :
    ActsOk (handle_frame reg conn addr name now f).acts :=
  ⟨(handle_frame_acts_facts reg conn addr name now f).1,
   (handle_frame_acts_facts reg conn addr name now f).2,
   handle_frame_wf_sends reg conn addr name now f hp⟩

theorem server_loop_closedHeader {fuel : Nat} {reg : Registry} {conn : Nat}
    {addr : String} {name : Option String} {now : Nat} {s : List Nat}
    (hrf : read_frame s = .closedHeader) :
    server_loop (fuel+1) reg conn addr name now s = (reg, []) := by
  rw [server_loop, hrf]

theorem server_loop_closedPayload {fuel : Nat} {reg : Registry} {conn : Nat}
    {addr : String} {name : Option String} {now : Nat} {s : List Nat} {l g : Nat}
    (hrf : read_frame s = .closedPayload l g) :
    server_loop (fuel+1) reg conn addr name now s = (reg, []) := by
  rw [server_loop, hrf]

theorem server_loop_headerError {fuel : Nat} {reg : Registry} {conn : Nat}
    {addr : String} {name : Option String} {now : Nat} {s : List Nat}
    (hrf : read_frame s = .headerError) :
    server_loop (fuel+1) reg conn addr name now s = (reg, []) := by
  rw [server_loop, hrf]

theorem server_loop_cont {fuel : Nat} {reg : Registry} {conn : Nat}
    {addr : String} {name : Option String} {now : Nat} {s : List Nat}
    {f : Frame} {rest : List Nat}
    (hrf : read_frame s = .ok f rest)
    (hex : (handle_frame reg conn addr name now f).exit = .cont) :
    server_loop (fuel+1) reg conn addr name now s =
      ((server_loop fuel (handle_frame reg conn addr name now f).reg conn addr
          (handle_frame reg conn addr name now f).name now rest).1,
       (handle_frame reg conn addr name now f).acts ++
         (server_loop fuel (handle_frame reg conn addr name now f).reg conn addr
           (handle_frame reg conn addr name now f).name now rest).2) := by
  rw [server_loop, hrf]
  simp only []
  rw [hex]

theorem server_loop_stop {fuel : Nat} {reg : Registry} {conn : Nat}
    {addr : String} {name : Option String} {now : Nat} {s : List Nat}
    {f : Frame} {rest : List Nat}
    (hrf : read_frame s = .ok f rest)
    (hex : (handle_frame reg conn addr name now f).exit = .stop) :
    server_loop (fuel+1) reg conn addr name now s =
      ((handle_frame reg conn addr name now f).reg,
       (handle_frame reg conn addr name now f).acts) := by
  rw [server_loop, hrf]
  simp only []
  rw [hex]

theorem server_loop_raised {fuel : Nat} {reg : Registry} {conn : Nat}
    {addr : String} {name : Option String} {now : Nat} {s : List Nat}
    {f : Frame} {rest : List Nat}
    (hrf : read_frame s = .ok f rest)
    (hex : (handle_frame reg conn addr name now f).exit = .raised) :
    server_loop (fuel+1) reg conn addr name now s =
      ((handle_frame reg conn addr name now f).reg,
       (handle_frame reg conn addr name now f).acts) := by
  rw [server_loop, hrf]
  simp only []
  rw [hex]

theorem server_loop_ActsOk (fuel : Nat) :
    ∀ (reg : Registry) (conn : Nat) (addr : String) (name : Option String)
      (now : Nat) (s : List Nat),
      ActsOk (server_loop fuel reg conn addr name now s).2 := by
  induction fuel with
  | zero => intro reg conn addr name now s; exact ActsOk_nil
  | succ n ih =>
    intro reg conn addr name now s
    cases hrf : read_frame s with
    | closedHeader => rw [server_loop_closedHeader hrf]; exact ActsOk_nil
    | closedPayload l g => rw [server_loop_closedPayload hrf]; exact ActsOk_nil
    | headerError => rw [server_loop_headerError hrf]; exact ActsOk_nil
    | ok f rest =>
      have hf := handle_frame_ActsOk reg conn addr name now f
        (read_frame_ok_payload_len hrf)
      cases hex : (handle_frame reg conn addr name now f).exit with
      | cont =>
        rw [server_loop_cont hrf hex]
        exact ActsOk_append hf (ih (handle_frame reg conn addr name now f).reg conn addr
          (handle_frame reg conn addr name now f).name now rest)
      | stop =>
        rw [server_loop_stop hrf hex]
        exact hf
      | raised =>
        rw [server_loop_raised hrf hex]
        exact hf


theorem cleanup_suffix_lockScan (conn : Nat) :
    lockScan [Action.acquire, Action.mapOp, Action.release, Action.close conn] 0 =
      some 0 := by
  simp [lockScan]

/-- C9: Lock discipline — over the whole life of a connection (dispatch
of every frame plus cleanup), the registry lock is taken in balanced,
non-nested critical sections that contain only registry operations, and
every socket write, file write and transport close happens with the
lock free. -/
theorem C9_lock_discipline (reg : Registry) (conn : Nat) (addr : String)
    (now : Nat) (s : List Nat) :
    lockScan ((handle_client reg conn addr now s).2) 0 = some 0 := by
  have h := (server_loop_ActsOk (s.length + 1) reg conn addr none now s).1
  cases hsl : server_loop (s.length + 1) reg conn addr none now s with
  | mk reg2 acts =>
    rw [hsl] at h
    unfold handle_client
    rw [hsl]
    simp only []
    rw [lockScan_append]
    simp only at h
    rw [h]
    simpa using cleanup_suffix_lockScan conn

/-- C10: every frame the server itself emits (`send_ack` ACKs, the LIST
response, the MSG rebroadcast) is well-formed — it is a single `sendall`
of header plus payload whose 4-byte length field equals the exact byte
count of the payload that follows the 8-byte header. -/
theorem C10_server_sends_wellformed (reg : Registry) (conn : Nat) (addr : String)
    (now : Nat) (s : List Nat) :
    ∀ q ∈ sendsOf (handle_client reg conn addr now s).2, wf_send q.2 = true := by
  have h := (server_loop_ActsOk (s.length + 1) reg conn addr none now s).2.2
  cases hsl : server_loop (s.length + 1) reg conn addr none now s with
  | mk reg2 acts =>
    rw [hsl] at h
    unfold handle_client
    rw [hsl]
    simp only []
    intro q hq
    rw [sendsOf_append] at hq
    rcases List.mem_append.mp hq with hm | hm
    · exact h q hm
    · simp [sendsOf] at hm

/-- C3: cleanup runs exactly once per connection on every exit path of
the per-connection loop — whatever the stream (explicit DISCONNECT,
clean close, truncated payload, or an exception inside dispatch), the
trace ends with the one removal of the connection under the lock
followed by the one transport close, and afterwards the registry no
longer contains the connection. -/
theorem C3_cleanup_once (reg : Registry) (conn : Nat) (addr : String)
    (now : Nat) (s : List Nat) :
    conn ∉ regKeys (handle_client reg conn addr now s).1 ∧
    (handle_client reg conn addr now s).1 =
      unregister conn (server_loop (s.length + 1) reg conn addr none now s).1 ∧
    ∃ pre, (handle_client reg conn addr now s).2 =
        pre ++ [Action.acquire, Action.mapOp, Action.release, Action.close conn] ∧
      ∀ a ∈ pre, ∀ c, a ≠ Action.close c := by
  have h := (server_loop_ActsOk (s.length + 1) reg conn addr none now s).2.1
  cases hsl : server_loop (s.length + 1) reg conn addr none now s with
  | mk reg2 acts =>
    rw [hsl] at h
    simp only at h
    refine ⟨?_, ?_, acts, ?_, h⟩
    · unfold handle_client
      rw [hsl]
      simp only []
      exact unregister_not_mem reg2 conn
    · unfold handle_client
      rw [hsl]
    · unfold handle_client
      rw [hsl]

theorem handle_frame_msg_eq (reg : Registry) (conn : Nat) (addr : String)
    (name : Option String) (now : Nat) (f : Frame)
    (htype : f.type_ = TYPE_MSG) (hv : f.version < 256) (hs : f.seq < 65536)
    (hl : f.length < 4294967296) :
    handle_frame reg conn addr name now f =
      ⟨reg, name,
       broadcast reg conn
         [f.version, TYPE_MSG, f.seq / 256, f.seq % 256,
          f.length / 16777216, f.length / 65536 % 256, f.length / 256 % 256,
          f.length % 256] f.payload ++
         [Action.sockWrite conn
           ([VERSION, TYPE_ACK, f.seq / 256, f.seq % 256, 0, 0, 0, 12] ++
             utf8Encode "MSG_RECEIVED")],
       .cont⟩ := by
  unfold handle_frame
  rw [htype]
  simp only [TYPE_CONNECT, TYPE_MSG, TYPE_LIST, TYPE_FILE, TYPE_ACK, TYPE_DISCONNECT,
    OfNat.ofNat_ne_one, reduceIte]
  rw [build_header_isSome f.version 2 f.seq f.length hv (by norm_num) hs hl]
  simp only []
  unfold send_ack
  rw [show (utf8Encode "MSG_RECEIVED").length = 12 from rfl]
  rw [build_header_isSome VERSION TYPE_ACK f.seq 12 (by norm_num [VERSION])
    (by norm_num [TYPE_ACK]) hs (by norm_num)]
  simp only []
  norm_num [VERSION, TYPE_ACK]

theorem handle_frame_connect_eq (reg : Registry) (conn : Nat) (addr : String)
    (name : Option String) (now : Nat) (f : Frame)
    (htype : f.type_ = TYPE_CONNECT) (hs : f.seq < 65536) :
    handle_frame reg conn addr name now f =
      ⟨register conn (ClientInfo.mk (String.mk (utf8DecIgnore none f.payload)) addr) reg,
       some (String.mk (utf8DecIgnore none f.payload)),
       [Action.acquire, Action.mapOp, Action.release,
        Action.sockWrite conn
          ([VERSION, TYPE_ACK, f.seq / 256, f.seq % 256, 0, 0, 0, 9] ++
            utf8Encode "CONNECTED")],
       .cont⟩ := by
  unfold handle_frame
  rw [htype]
  simp only [TYPE_CONNECT, reduceIte]
  simp only [pyDecodeIgnore]
  unfold send_ack
  rw [show (utf8Encode "CONNECTED").length = 9 from rfl]
  rw [build_header_isSome VERSION TYPE_ACK f.seq 9 (by norm_num [VERSION])
    (by norm_num [TYPE_ACK]) hs (by norm_num)]
  simp only []
  norm_num [VERSION, TYPE_ACK]

theorem handle_frame_list_eq (reg : Registry) (conn : Nat) (addr : String)
    (name : Option String) (now : Nat) (f : Frame)
    (htype : f.type_ = TYPE_LIST) (hs : f.seq < 65536)
    (hlen : (list_payload reg).length < 4294967296) :
    handle_frame reg conn addr name now f =
      ⟨reg, name,
       [Action.acquire, Action.mapOp, Action.release,
        Action.sockWrite conn
          ([VERSION, TYPE_LIST, f.seq / 256, f.seq % 256,
            (list_payload reg).length / 16777216,
            (list_payload reg).length / 65536 % 256,
            (list_payload reg).length / 256 % 256,
            (list_payload reg).length % 256] ++ list_payload reg)],
       .cont⟩ := by
  unfold handle_frame
  rw [htype]
  norm_num [TYPE_CONNECT, TYPE_MSG, TYPE_LIST]
  rw [build_header_isSome VERSION 3 f.seq (list_payload reg).length
    (by norm_num [VERSION]) (by norm_num) hs hlen]
  simp only []
  norm_num [VERSION, TYPE_LIST]


/-- C2: MSG broadcast — a MSG frame from a registered connection is
re-encoded with the original version, type, sequence and length and sent
to exactly the connections in the registry snapshot other than the
sender (the sender receives no copy of its own broadcast), and after the
fan-out the server sends the sender an ACK with the original sequence
and payload MSG_RECEIVED. -/
theorem C2_msg_broadcast (reg : Registry) (conn : Nat) (addr : String)
    (name : Option String) (now : Nat) (f : Frame)
    (htype : f.type_ = TYPE_MSG) (hv : f.version < 256) (hs : f.seq < 65536)
    (hl : f.length < 4294967296) :
    ∃ hdr ackHdr,
      build_header f.version TYPE_MSG f.seq f.length = some hdr ∧
      build_header VERSION TYPE_ACK f.seq (utf8Encode "MSG_RECEIVED").length =
        some ackHdr ∧
      sendsOf (handle_frame reg conn addr name now f).acts =
        (snapshot_except reg conn).map (fun c => (c, hdr ++ f.payload)) ++
          [(conn, ackHdr ++ utf8Encode "MSG_RECEIVED")] ∧
      conn ∉ snapshot_except reg conn ∧
      (∀ c, c ∈ snapshot_except reg conn ↔ c ∈ regKeys reg ∧ c ≠ conn) ∧
      parse_header (hdr ++ f.payload) = some (f.version, TYPE_MSG, f.seq, f.length) ∧
      (hdr ++ f.payload).drop HEADER_SIZE = f.payload ∧
      parse_header (ackHdr ++ utf8Encode "MSG_RECEIVED") =
        some (VERSION, TYPE_ACK, f.seq, (utf8Encode "MSG_RECEIVED").length) ∧
      (handle_frame reg conn addr name now f).reg = reg ∧
      (handle_frame reg conn addr name now f).exit = ExitKind.cont := by
  have heq := handle_frame_msg_eq reg conn addr name now f htype hv hs hl
  refine ⟨[f.version, TYPE_MSG, f.seq / 256, f.seq % 256,
      f.length / 16777216, f.length / 65536 % 256, f.length / 256 % 256, f.length % 256],
    [VERSION, TYPE_ACK, f.seq / 256, f.seq % 256, 0, 0, 0, 12],
    ?_, ?_, ?_, ?_, ?_, ?_, ?_, ?_, ?_, ?_⟩
  · rw [build_header_isSome f.version TYPE_MSG f.seq f.length hv (by norm_num [TYPE_MSG]) hs hl]
  · rw [show (utf8Encode "MSG_RECEIVED").length = 12 from rfl]
    rw [build_header_isSome VERSION TYPE_ACK f.seq 12 (by norm_num [VERSION])
      (by norm_num [TYPE_ACK]) hs (by norm_num)]
  · rw [heq]
    simp only [broadcast, List.append_assoc]
    rw [sendsOf_append, sendsOf_append, sendsOf_map_sockWrite]
    simp [sendsOf]
  · simp only [snapshot_except, List.mem_map, List.mem_filter]
    rintro ⟨p, ⟨_, hne⟩, heq2⟩
    simp only [bne_iff_ne, ne_eq] at hne
    exact hne heq2
  · intro c
    simp only [snapshot_except, regKeys, List.mem_map, List.mem_filter, bne_iff_ne, ne_eq]
    constructor
    · rintro ⟨p, ⟨hp, hne⟩, rfl⟩
      exact ⟨⟨p, hp, rfl⟩, hne⟩
    · rintro ⟨⟨p, hp, rfl⟩, hne⟩
      exact ⟨p, ⟨hp, hne⟩, rfl⟩
  · exact parse_build f.version TYPE_MSG f.seq f.length f.payload
  · simp [HEADER_SIZE]
  · rw [show (utf8Encode "MSG_RECEIVED").length = 12 from rfl]
    have := parse_build VERSION TYPE_ACK f.seq 12 (utf8Encode "MSG_RECEIVED")
    norm_num at this ⊢
    exact this
  · rw [heq]
  · rw [heq]

theorem C2_msg_broadcast_witness :
    ∃ hdr ackHdr,
      build_header 1 TYPE_MSG 5 2 = some hdr ∧
      build_header VERSION TYPE_ACK 5 (utf8Encode "MSG_RECEIVED").length = some ackHdr ∧
      sendsOf (handle_frame
          [(1, ClientInfo.mk "A" "a1"), (2, ClientInfo.mk "B" "a2"),
           (3, ClientInfo.mk "C" "a3")] 2 "a2" (some "B") 0
          (Frame.mk 1 TYPE_MSG 5 2 [104, 105])).acts =
        (snapshot_except
            [(1, ClientInfo.mk "A" "a1"), (2, ClientInfo.mk "B" "a2"),
             (3, ClientInfo.mk "C" "a3")] 2).map (fun c => (c, hdr ++ [104, 105])) ++
          [(2, ackHdr ++ utf8Encode "MSG_RECEIVED")] ∧
      2 ∉ snapshot_except
          [(1, ClientInfo.mk "A" "a1"), (2, ClientInfo.mk "B" "a2"),
           (3, ClientInfo.mk "C" "a3")] 2 ∧
      parse_header (hdr ++ [104, 105]) = some (1, TYPE_MSG, 5, 2) := by
  obtain ⟨hdr, ackHdr, h1, h2, h3, h4, _, h6, _, _, _, _⟩ :=
    C2_msg_broadcast
      [(1, ClientInfo.mk "A" "a1"), (2, ClientInfo.mk "B" "a2"),
       (3, ClientInfo.mk "C" "a3")] 2 "a2" (some "B") 0
      (Frame.mk 1 TYPE_MSG 5 2 [104, 105]) rfl (by decide) (by decide) (by decide)
  exact ⟨hdr, ackHdr, h1, h2, h3, h4, h6⟩


/-- C6: CONNECT handling — the payload is decoded as the display name
by `decode('utf-8', errors='ignore')`, which never raises (so the
`except` fallback to the stringified peer address is dead code); the
connection is registered under that name and the server replies with an
ACK whose payload is CONNECTED and whose sequence echoes the request. -/
theorem C6_connect (reg : Registry) (conn : Nat) (addr : String)
    (name : Option String) (now : Nat) (f : Frame)
    (htype : f.type_ = TYPE_CONNECT) (hs : f.seq < 65536) :
    ∃ dname ackHdr,
      pyDecodeIgnore f.payload = some dname ∧
      (handle_frame reg conn addr name now f).reg =
        register conn (ClientInfo.mk dname addr) reg ∧
      (handle_frame reg conn addr name now f).name = some dname ∧
      build_header VERSION TYPE_ACK f.seq (utf8Encode "CONNECTED").length =
        some ackHdr ∧
      sendsOf (handle_frame reg conn addr name now f).acts =
        [(conn, ackHdr ++ utf8Encode "CONNECTED")] ∧
      parse_header (ackHdr ++ utf8Encode "CONNECTED") =
        some (VERSION, TYPE_ACK, f.seq, (utf8Encode "CONNECTED").length) ∧
      (handle_frame reg conn addr name now f).exit = ExitKind.cont := by
  have heq := handle_frame_connect_eq reg conn addr name now f htype hs
  refine ⟨String.mk (utf8DecIgnore none f.payload),
    [VERSION, TYPE_ACK, f.seq / 256, f.seq % 256, 0, 0, 0, 9],
    rfl, ?_, ?_, ?_, ?_, ?_, ?_⟩
  · rw [heq]
  · rw [heq]
  · rw [show (utf8Encode "CONNECTED").length = 9 from rfl]
    rw [build_header_isSome VERSION TYPE_ACK f.seq 9 (by norm_num [VERSION])
      (by norm_num [TYPE_ACK]) hs (by norm_num)]
  · rw [heq]
    simp [sendsOf]
  · rw [show (utf8Encode "CONNECTED").length = 9 from rfl]
    have h := parse_build VERSION TYPE_ACK f.seq 9 (utf8Encode "CONNECTED")
    norm_num at h ⊢
    exact h
  · rw [heq]

theorem C6_connect_witness :
    ∃ dname ackHdr,
      pyDecodeIgnore ([66, 111, 98] : List Nat) = some dname ∧
      (handle_frame [] 7 "pa" none 0 (Frame.mk 1 TYPE_CONNECT 3 3 [66, 111, 98])).reg =
        register 7 (ClientInfo.mk dname "pa") [] ∧
      (handle_frame [] 7 "pa" none 0 (Frame.mk 1 TYPE_CONNECT 3 3 [66, 111, 98])).name =
        some dname ∧
      build_header VERSION TYPE_ACK 3 (utf8Encode "CONNECTED").length = some ackHdr ∧
      sendsOf (handle_frame [] 7 "pa" none 0
          (Frame.mk 1 TYPE_CONNECT 3 3 [66, 111, 98])).acts =
        [(7, ackHdr ++ utf8Encode "CONNECTED")] ∧
      parse_header (ackHdr ++ utf8Encode "CONNECTED") =
        some (VERSION, TYPE_ACK, 3, (utf8Encode "CONNECTED").length) ∧
      (handle_frame [] 7 "pa" none 0 (Frame.mk 1 TYPE_CONNECT 3 3 [66, 111, 98])).exit =
        ExitKind.cont :=
  C6_connect [] 7 "pa" none 0 (Frame.mk 1 TYPE_CONNECT 3 3 [66, 111, 98]) rfl (by decide)

/-- C4 (amended): LIST response — the server replies with a LIST-type
frame (not an ACK) echoing the request sequence, whose payload is the
semicolon-join, in registry insertion order, of the names of the
currently registered connections whose name is non-empty; a registered
connection with an empty display name is omitted by the truthiness
filter in server.py line 110. -/
theorem C4_list_response (reg : Registry) (conn : Nat) (addr : String)
    (name : Option String) (now : Nat) (f : Frame)
    (htype : f.type_ = TYPE_LIST) (hs : f.seq < 65536)
    (hlen : (list_payload reg).length < 4294967296) :
    ∃ hdr,
      build_header VERSION TYPE_LIST f.seq (list_payload reg).length = some hdr ∧
      list_payload reg = utf8Encode (String.intercalate ";" (list_names reg)) ∧
      list_names reg = (reg.map (fun p => p.2.name)).filter (fun n => n != "") ∧
      sendsOf (handle_frame reg conn addr name now f).acts =
        [(conn, hdr ++ list_payload reg)] ∧
      parse_header (hdr ++ list_payload reg) =
        some (VERSION, TYPE_LIST, f.seq, (list_payload reg).length) ∧
      TYPE_LIST ≠ TYPE_ACK ∧
      (handle_frame reg conn addr name now f).reg = reg ∧
      (handle_frame reg conn addr name now f).exit = ExitKind.cont := by
  have heq := handle_frame_list_eq reg conn addr name now f htype hs hlen
  refine ⟨[VERSION, TYPE_LIST, f.seq / 256, f.seq % 256,
      (list_payload reg).length / 16777216, (list_payload reg).length / 65536 % 256,
      (list_payload reg).length / 256 % 256, (list_payload reg).length % 256],
    ?_, rfl, rfl, ?_, ?_, by norm_num [TYPE_LIST, TYPE_ACK], ?_, ?_⟩
  · rw [build_header_isSome VERSION TYPE_LIST f.seq (list_payload reg).length
      (by norm_num [VERSION]) (by norm_num [TYPE_LIST]) hs hlen]
  · rw [heq]
    simp [sendsOf]
  · exact parse_build VERSION TYPE_LIST f.seq (list_payload reg).length (list_payload reg)
  · rw [heq]
  · rw [heq]

theorem C4_list_response_witness :
    ∃ hdr,
      build_header VERSION TYPE_LIST 7 (list_payload [(1, ClientInfo.mk "Bob" "a")]).length =
        some hdr ∧
      list_payload [(1, ClientInfo.mk "Bob" "a")] =
        utf8Encode (String.intercalate ";" (list_names [(1, ClientInfo.mk "Bob" "a")])) ∧
      list_names [(1, ClientInfo.mk "Bob" "a")] =
        ([(1, ClientInfo.mk "Bob" "a")].map (fun p => p.2.name)).filter (fun n => n != "") ∧
      sendsOf (handle_frame [(1, ClientInfo.mk "Bob" "a")] 1 "a" (some "Bob") 0
          (Frame.mk 1 TYPE_LIST 7 0 [])).acts =
        [(1, hdr ++ list_payload [(1, ClientInfo.mk "Bob" "a")])] ∧
      parse_header (hdr ++ list_payload [(1, ClientInfo.mk "Bob" "a")]) =
        some (VERSION, TYPE_LIST, 7, (list_payload [(1, ClientInfo.mk "Bob" "a")]).length) ∧
      TYPE_LIST ≠ TYPE_ACK ∧
      (handle_frame [(1, ClientInfo.mk "Bob" "a")] 1 "a" (some "Bob") 0
          (Frame.mk 1 TYPE_LIST 7 0 [])).reg = [(1, ClientInfo.mk "Bob" "a")] ∧
      (handle_frame [(1, ClientInfo.mk "Bob" "a")] 1 "a" (some "Bob") 0
          (Frame.mk 1 TYPE_LIST 7 0 [])).exit = ExitKind.cont :=
  C4_list_response [(1, ClientInfo.mk "Bob" "a")] 1 "a" (some "Bob") 0
    (Frame.mk 1 TYPE_LIST 7 0 []) rfl (by decide) (by decide)

/-- C4 counterexample: with two registered connections, one of them
under the empty display name, the LIST reply payload is just "Alice" —
the empty-named registered connection is omitted, while the claim
demands the join of the names of all registered connections. -/
theorem C4_list_counterexample :
    regKeys [(1, ClientInfo.mk "" "a1"), (2, ClientInfo.mk "Alice" "a2")] = [1, 2] ∧
    (sendsOf (handle_frame [(1, ClientInfo.mk "" "a1"), (2, ClientInfo.mk "Alice" "a2")]
        2 "a2" (some "Alice") 0 (Frame.mk 1 TYPE_LIST 7 0 [])).acts).map
      (fun q => q.2.drop HEADER_SIZE) = [utf8Encode "Alice"] ∧
    utf8Encode "Alice" ≠
      utf8Encode (String.intercalate ";"
        ([(1, ClientInfo.mk "" "a1"), (2, ClientInfo.mk "Alice" "a2")].map
          (fun p => p.2.name))) ∧
    utf8Encode "Alice" ≠
      utf8Encode (String.intercalate ";"
        (([(1, ClientInfo.mk "" "a1"), (2, ClientInfo.mk "Alice" "a2")].map
          (fun p => p.2.name)).reverse)) := by
  decide

theorem rc_fill (k : Nat) :
    ∀ (cur extra : List Nat), 1 ≤ k → cur.length + k = 4096 →
      readChunks4096 cur (List.replicate k 0 ++ extra) =
        (cur.reverse ++ List.replicate k 0) :: readChunks4096 [] extra := by
  induction k with
  | zero => intro cur extra h1 _; exact absurd h1 (by norm_num)
  | succ k ih =>
    intro cur extra h1 h2
    rw [List.replicate_succ, List.cons_append]
    show (if cur.length = 4095 then
        (0 :: cur).reverse :: readChunks4096 [] (List.replicate k 0 ++ extra)
      else readChunks4096 (0 :: cur) (List.replicate k 0 ++ extra)) = _
    by_cases hc : cur.length = 4095
    · have hk : k = 0 := by omega
      subst hk
      rw [if_pos hc]
      simp
    · have hk : 1 ≤ k := by omega
      rw [if_neg hc]
      rw [ih (0 :: cur) extra hk (by simp only [List.length_cons]; omega)]
      simp [List.replicate_succ]

/-- C5 counterexample: a `/sendfile` of a 4097-byte file (two chunks)
followed by a chat line produces outgoing sequence numbers 1 (CONNECT),
2 and 3 (the two FILE chunks), and then 3 again for the MSG — two
successive outgoing frames carry the same sequence with the counter
nowhere near wrapping, because `main` advances the shared counter only
once per `/sendfile` while `send_file` increments a local copy per
chunk. -/
theorem C5_counterexample :
    (client_run "A" (fun _ => some (List.replicate 4097 0))
        ["/sendfile f.bin", "hi"]).map (fun fr => fr.seq) = [1, 2, 3, 3] ∧
    (client_run "A" (fun _ => some (List.replicate 4097 0))
        ["/sendfile f.bin", "hi"]).map (fun fr => fr.type_) =
      [TYPE_CONNECT, TYPE_FILE, TYPE_FILE, TYPE_MSG] := by
  have c1 : strStarts "/sendfile f.bin" "/quit" = false := by decide
  have c2 : strStarts "/sendfile f.bin" "/exit" = false := by decide
  have c3 : strStarts "/sendfile f.bin" "/who" = false := by decide
  have c4 : strStarts "/sendfile f.bin" "/list" = false := by decide
  have c5 : strStarts "/sendfile f.bin" "/sendfile " = true := by decide
  have c6 : pyStrip (split_after_space "/sendfile f.bin") = "f.bin" := by decide
  have d1 : strStarts "hi" "/quit" = false := by decide
  have d2 : strStarts "hi" "/exit" = false := by decide
  have d3 : strStarts "hi" "/who" = false := by decide
  have d4 : strStarts "hi" "/list" = false := by decide
  have d5 : strStarts "hi" "/sendfile " = false := by decide
  have hloop : client_loop (fun _ => some (List.replicate 4097 0)) 2
      ["/sendfile f.bin", "hi"] =
      send_file (fun _ => some (List.replicate 4097 0)) "f.bin" 2 ++
        [send_msg "hi" 3] := by
    simp only [client_loop, c1, c2, c3, c4, c5, c6, d1, d2, d3, d4, d5,
      Bool.false_or, Bool.or_false, Bool.or_self, if_false, if_true,
      String.reduceEq, reduceIte, Bool.false_eq_true, Nat.reduceAdd, Nat.reduceMod,
      List.append_nil]
  have hrep : List.replicate 4097 (0 : Nat) = List.replicate 4096 0 ++ [0] := by
    rw [← List.replicate_succ']
  have hrc : readChunks4096 [] (List.replicate 4097 0) = [List.replicate 4096 0, [0]] := by
    rw [hrep, rc_fill 4096 [] [0] (by norm_num) (by simp)]
    rfl
  have hall : client_run "A" (fun _ => some (List.replicate 4097 0))
      ["/sendfile f.bin", "hi"] =
      [OutFrame.mk TYPE_CONNECT 1 (utf8Encode "A"),
       OutFrame.mk TYPE_FILE 2 (List.replicate 4096 0),
       OutFrame.mk TYPE_FILE 3 [0],
       OutFrame.mk TYPE_MSG 3 (utf8Encode "hi")] := by
    rw [show client_run "A" (fun _ => some (List.replicate 4097 0))
        ["/sendfile f.bin", "hi"] =
      send_connect "A" 1 :: client_loop (fun _ => some (List.replicate 4097 0)) 2
        ["/sendfile f.bin", "hi"] from rfl, hloop]
    rw [show send_file (fun _ => some (List.replicate 4097 0)) "f.bin" 2 =
      send_file_loop 2 (readChunks4096 [] (List.replicate 4097 0)) from rfl]
    rw [hrc]
    rfl
  rw [hall]
  constructor <;> rfl


theorem seq_cons_step {s : Nat} (hs : s < 65536) (fr : OutFrame) (tail : List OutFrame)
    (hfr : fr.seq = s)
    (htail : tail.map (fun fr => fr.seq) =
      (List.range tail.length).map (fun i => ((s + 1) % 65536 + i) % 65536)) :
    (fr :: tail).map (fun fr => fr.seq) =
      (List.range (fr :: tail).length).map (fun i => (s + i) % 65536) := by
  simp only [List.map_cons, List.length_cons, hfr]
  rw [List.range_succ_eq_map]
  simp only [List.map_cons, List.map_map]
  refine List.cons_eq_cons.mpr ⟨by omega, ?_⟩
  rw [htail]
  apply List.map_congr_left
  intro i _
  simp only [Function.comp_apply]
  omega

theorem send_file_loop_seqs (cs : List (List Nat)) :
    ∀ s, s < 65536 →
      (send_file_loop s cs).map (fun fr => fr.seq) =
        (List.range cs.length).map (fun i => (s + i) % 65536) := by
  induction cs with
  | nil => intro s _; rfl
  | cons c cs ih =>
    intro s hs
    show (OutFrame.mk TYPE_FILE s c :: send_file_loop ((s + 1) % 65536) cs).map
        (fun fr => fr.seq) = _
    have hlen : (send_file_loop ((s + 1) % 65536) cs).length = cs.length := by
      clear ih hs
      induction cs generalizing s with
      | nil => rfl
      | cons d ds ihd => simp only [send_file_loop, List.length_cons, ihd]
    have h := seq_cons_step hs (OutFrame.mk TYPE_FILE s c)
      (send_file_loop ((s + 1) % 65536) cs) rfl
      (by rw [hlen]; exact ih ((s + 1) % 65536) (Nat.mod_lt _ (by norm_num)))
    simpa [hlen] using h

theorem client_loop_length_seqs (fs : String → Option (List Nat)) :
    ∀ (lines : List String), (∀ l ∈ lines, strStarts l "/sendfile " = false) →
      ∀ s, s < 65536 →
        (client_loop fs s lines).map (fun fr => fr.seq) =
          (List.range (client_loop fs s lines).length).map (fun i => (s + i) % 65536) := by
  intro lines
  induction lines with
  | nil => intro _ s _; rfl
  | cons line rest ih =>
    intro hno s hs
    have hline := hno line (by simp)
    have hrest : ∀ l ∈ rest, strStarts l "/sendfile " = false :=
      fun l hl => hno l (by simp [hl])
    have hmod : (s + 1) % 65536 < 65536 := Nat.mod_lt _ (by norm_num)
    simp only [client_loop]
    split_ifs with h0 hq hw hsf
    · exact ih hrest s hs
    · exact seq_cons_step hs _ [] rfl rfl
    · exact seq_cons_step hs _ _ rfl (ih hrest ((s + 1) % 65536) hmod)
    · rw [hsf] at hline
      exact absurd hline (by simp)
    · exact seq_cons_step hs _ _ rfl (ih hrest ((s + 1) % 65536) hmod)

/-- C5 (amended): all outgoing frames of the client's main loop draw
from the single shared counter that starts at 1 with CONNECT and
increments mod 65536 once per main-loop send, so when no `/sendfile`
command occurs the sequence trace is exactly 1, 2, 3, ... mod 65536;
the FILE chunks inside one `/sendfile` increment a local copy of the
counter mod 65536 per chunk, while the shared counter advances only
once per `/sendfile` command; incrementing from 65535 yields 0. -/
theorem C5_sequence_counter :
    (∀ (fs : String → Option (List Nat)) (name : String) (lines : List String),
      (∀ l ∈ lines, strStarts l "/sendfile " = false) →
      (client_run name fs lines).map (fun fr => fr.seq) =
        (List.range (client_run name fs lines).length).map (fun i => (1 + i) % 65536)) ∧
    (∀ (cs : List (List Nat)) (s : Nat), s < 65536 →
      (send_file_loop s cs).map (fun fr => fr.seq) =
        (List.range cs.length).map (fun i => (s + i) % 65536)) ∧
    (client_loop (fun _ => none) 65535 ["a", "b"]).map (fun fr => fr.seq) =
      [65535, 0] := by
  refine ⟨?_, ?_, by decide⟩
  · intro fs name lines hno
    exact seq_cons_step (by norm_num) (send_connect name 1)
      (client_loop fs ((1 + 1) % 65536) lines) rfl
      (client_loop_length_seqs fs lines hno ((1 + 1) % 65536) (by norm_num))
  · intro cs s hs
    exact send_file_loop_seqs cs s hs

theorem C5_sequence_counter_witness :
    (client_run "A" (fun _ => none) ["x", "y"]).map (fun fr => fr.seq) =
      (List.range (client_run "A" (fun _ => none) ["x", "y"]).length).map
        (fun i => (1 + i) % 65536) ∧
    (send_file_loop 7 [[1], [2], [3]]).map (fun fr => fr.seq) =
      (List.range ([[1], [2], [3]] : List (List Nat)).length).map
        (fun i => (7 + i) % 65536) :=
  ⟨C5_sequence_counter.1 (fun _ => none) "A" ["x", "y"] (by decide),
   C5_sequence_counter.2.1 [[1], [2], [3]] 7 (by decide)⟩


theorem C10_server_sends_wellformed_witness :
    wf_send ([1, 5, 0, 1, 0, 0, 0, 9] ++ utf8Encode "CONNECTED") = true :=
  C10_server_sends_wellformed [] 7 "pa" 0 [1, 1, 0, 1, 0, 0, 0, 3, 66, 111, 98]
    (7, [1, 5, 0, 1, 0, 0, 0, 9] ++ utf8Encode "CONNECTED") (by decide)

end Chat
